import Mathlib

/-!
Shallow embedding of the "lab" chat-bot command (src/plugins/lab.js), a small
CRUD record store for laboratory bookings, together with proofs of the
specified behaviour.

Modelling conventions:
  * Strings of JavaScript are modelled by Lean `String`; the only string
    operations the code performs (equality, regex tests on digits, `toLowerCase`
    of the action keyword, concatenation, `slice(-6)` of a decimal number)
    are embedded character-for-character.
  * The JSON document held in the bookings file is `Store`; its `bookings`
    field is an `Option (List Booking)` so that a parsed document without a
    `bookings` key (`none`) is representable, matching the truthiness test
    `!bookingsData.bookings` in the `view` case.
  * File effects are made explicit: the handler receives the already-loaded
    document (the code calls `loadBookings()` once, before the switch) and
    returns, besides the reply text, the document passed to `saveBookings`
    when and only when the code calls `saveBookings`.  `Env.saveOk` is the
    boolean that `saveBookings` returns.
  * `Env.now` is `Date.now()` (milliseconds since the epoch, a Nat),
    `Env.nowISO` is `new Date().toISOString()`, and `Env.locale` is the
    composite `s ↦ new Date(s).toLocaleString()` used only for display in the
    `status` case; these are environment inputs of a single invocation.
  * In the `book` case, if `bookings` is absent the code throws at
    `bookingsData.bookings.push(...)`; likewise `cancel`/`status` throw at
    `.findIndex`/`.find`.  The outer try/catch turns any such throw into the
    generic error reply with no save, which is how those branches are embedded.
-/

namespace LabBooking

/-- A booking record, mirroring the object literal built in the `book` case
(fields `id`, `customerName`, `date`, `time`, `labType`, `status`,
`bookingTime`). -/
structure Booking where
  id : String
  customerName : String
  date : String
  time : String
  labType : String
  status : String
  bookingTime : String
deriving DecidableEq

/-- The store document persisted in `lab_bookings.json`.  `bookings = none`
models a JSON object with no `bookings` key; the documents the program itself
writes always have the key. -/
structure Store where
  bookings : Option (List Booking)
deriving DecidableEq

/-- The empty document the loader falls back to on any read or parse failure. -/
def emptyStore : Store := ⟨some []⟩

/-- Possible outcomes of reading and parsing the bookings file at the fixed
path: the read and parse both succeed and yield a document, the read fails
(missing file, permission error), or the parse fails (corrupt JSON). -/
inductive FileOutcome where
  | validJson (doc : Store)
  | readError
  | parseError
deriving DecidableEq

/-- Helper `loadBookings` (src/plugins/lab.js:9-17): `try` to read and parse the
file; any `catch` returns the empty bookings object. -/
def loadBookings : FileOutcome → Store
  | .validJson d => d
  | .readError => emptyStore
  | .parseError => emptyStore

/-- The character class `\d` of the two validation regexes: an ASCII digit. -/
def isDigitCh (c : Char) : Bool := decide ('0' ≤ c) && decide (c ≤ '9')

/-- The test `/^\d\x7b4\x7d-\d\x7b2\x7d-\d\x7b2\x7d$/.test(date)`
(src/plugins/lab.js:80): exactly four digits, a hyphen, two digits, a hyphen,
two digits. -/
def dateFormatOk (s : String) : Bool :=
  match s.data with
  | [y1, y2, y3, y4, '-', m1, m2, '-', d1, d2] =>
    isDigitCh y1 && isDigitCh y2 && isDigitCh y3 && isDigitCh y4 &&
    isDigitCh m1 && isDigitCh m2 && isDigitCh d1 && isDigitCh d2
  | _ => false

/-- The test `/^\d\x7b1,2\x7d:\d\x7b2\x7d$/.test(time)`
(src/plugins/lab.js:85): one or two digits, a colon, two digits. -/
def timeFormatOk (s : String) : Bool :=
  match s.data with
  | [h1, ':', m1, m2] => isDigitCh h1 && isDigitCh m1 && isDigitCh m2
  | [h1, h2, ':', m1, m2] =>
    isDigitCh h1 && isDigitCh h2 && isDigitCh m1 && isDigitCh m2
  | _ => false

/-- The decimal digit character for `n < 10`. -/
def digitOfNat (n : Nat) : Char := Char.ofNat (48 + n)

/-- Decimal representation of a natural number as a character list, embedding
`Number.prototype.toString()` on the non-negative integer `Date.now()`. -/
def natDec (n : Nat) : List Char :=
  if _h : n < 10 then [digitOfNat n]
  else natDec (n / 10) ++ [digitOfNat (n % 10)]
decreasing_by exact Nat.div_lt_self (by omega) (by omega)

/-- Decimal representation as a string. -/
def natDecStr (n : Nat) : String := ⟨natDec n⟩

/-- Model of `String.prototype.slice(-k)`: the last `k` characters (all when
the string is shorter than `k`). -/
def sliceLast (k : Nat) (l : List Char) : List Char := l.drop (l.length - k)

/-- The generated booking id `LAB` + `Date.now().toString().slice(-6)`
(src/plugins/lab.js:90). -/
def bookingIdOf (now : Nat) : String := "LAB" ++ (⟨sliceLast 6 (natDec now)⟩ : String)

/-- The shape `^LAB\d\x7b6\x7d$` claimed of generated ids: the literal `LAB`
followed by exactly six ASCII digits. -/
def isLabId (s : String) : Bool :=
  match s.data with
  | 'L' :: 'A' :: 'B' :: ds => (ds.length == 6) && ds.all isDigitCh
  | _ => false

/-- Model of `String.prototype.toLowerCase` restricted to ASCII letters, all
the dispatch comparison against the ASCII keywords `book`, `view`, `cancel`,
`status` can distinguish. -/
def lowerChar (c : Char) : Char :=
  if 'A' ≤ c ∧ c ≤ 'Z' then Char.ofNat (c.toNat + 32) else c

/-- Lower-casing of the action token (`args[0].toLowerCase()`,
src/plugins/lab.js:61). -/
def lowerStr (s : String) : String := ⟨s.data.map lowerChar⟩

/-- Environment of one invocation: the clock readings, whether the file write
performed by `saveBookings` succeeds, and the locale rendering of a stored
`bookingTime` used by the `status` reply. -/
structure Env where
  now : Nat
  nowISO : String
  saveOk : Bool
  locale : String → String

/-- Observable result of one invocation: the reply text passed to `repondre`,
and the document passed to `saveBookings` when the handler called it
(`none` when no save was attempted). -/
structure LabResult where
  reply : String
  saved : Option Store
deriving DecidableEq

/-- Help reply for a missing action token (src/plugins/lab.js:50-58). -/
def helpMsg : String :=
  "*Lab Booking System*\n\nAvailable commands:\n- *book [name] [date] [time] [lab-type]* - Book a lab slot\n- *view* - View all bookings\n- *cancel [booking-id]* - Cancel a booking\n- *status [booking-id]* - Check booking status\n\nExample: lab book John 2025-05-20 14:00 chemistry"

/-- Reply when fewer than four positional arguments follow `book`. -/
def missingArgsMsg : String :=
  "*Please provide all required information:* name, date, time, and lab-type"

/-- Reply for a date failing the format regex. -/
def invalidDateMsg : String := "*Invalid date format.* Please use YYYY-MM-DD format."

/-- Reply for a time failing the format regex. -/
def invalidTimeMsg : String := "*Invalid time format.* Please use HH:MM format."

/-- Confirmation reply of a successful `book` (src/plugins/lab.js:110-118). -/
def confirmMsg (bid name date time labType : String) : String :=
  "*✅ Lab Booking Confirmed!*\n\n*Booking ID:* " ++ (bid ++
    ("\n*Customer:* " ++ (name ++
      ("\n*Date:* " ++ (date ++
        ("\n*Time:* " ++ (time ++
          ("\n*Lab Type:* " ++ (labType ++
            ("\n\nTo check status, use: lab status " ++ bid))))))))))

/-- Reply when the save following `book` fails. -/
def saveFailBookMsg : String := "*⚠️ Failed to save booking. Please try again.*"

/-- Reply of `view` on an empty or absent bookings list. -/
def noBookingsMsg : String := "*No bookings found.*"

/-- Header of the `view` listing. -/
def viewHeader : String := "*📋 Lab Bookings List*\n\n"

/-- One entry of the `view` listing, for the record at 0-based index `i`
(src/plugins/lab.js:132-140). -/
def renderOne (i : Nat) (b : Booking) : String :=
  "*Booking #" ++ (natDecStr (i + 1) ++
    ("*\nID: " ++ (b.id ++
      ("\nCustomer: " ++ (b.customerName ++
        ("\nDate: " ++ (b.date ++
          ("\nTime: " ++ (b.time ++
            ("\nLab Type: " ++ (b.labType ++
              ("\nStatus: " ++ (b.status ++ "\n\n")))))))))))))

/-- The `forEach` loop of `view`: renders the records in list order, the
record at 0-based position `i` displayed with number `i + 1`. -/
def renderFrom (i : Nat) : List Booking → String
  | [] => ""
  | b :: bs => renderOne i b ++ renderFrom (i + 1) bs

/-- Reply when `cancel` is invoked without an id. -/
def provideCancelIdMsg : String := "*Please provide a booking ID to cancel.*"

/-- Not-found reply of `cancel` and `status` (identical text in both cases). -/
def notFoundMsg (bid : String) : String :=
  "*Booking with ID " ++ (bid ++ " not found.*")

/-- Success reply of `cancel`. -/
def cancelOkMsg (bid : String) : String :=
  "*✅ Booking " ++ (bid ++ " has been cancelled successfully.*")

/-- Reply when the save following `cancel` fails. -/
def saveFailCancelMsg : String := "*⚠️ Failed to cancel booking. Please try again.*"

/-- Reply when `status` is invoked without an id. -/
def provideStatusIdMsg : String := "*Please provide a booking ID to check status.*"

/-- Status reply (src/plugins/lab.js:182-191); `loc` renders `bookingTime`
in the locale. -/
def statusMsg (loc : String → String) (b : Booking) : String :=
  "*🔍 Booking Status*\n\n*Booking ID:* " ++ (b.id ++
    ("\n*Customer:* " ++ (b.customerName ++
      ("\n*Date:* " ++ (b.date ++
        ("\n*Time:* " ++ (b.time ++
          ("\n*Lab Type:* " ++ (b.labType ++
            ("\n*Status:* " ++ (b.status ++
              ("\n*Booked on:* " ++ loc b.bookingTime))))))))))))

/-- Reply of the unknown-command default case. -/
def unknownMsg : String :=
  "*Unknown command.* Use \x27lab\x27 without arguments to see available commands."

/-- Reply produced by the outer catch when an action throws. -/
def genericErrorMsg : String :=
  "*⚠️ An error occurred while processing your request. Please try again.*"

/-- The `book` case (src/plugins/lab.js:68-121).  Early returns are embedded
as nested conditionals; the throw on an absent `bookings` array (at `.push`)
becomes the generic error reply of the outer catch. -/
def bookAction (args : List String) (doc : Store) (env : Env) : LabResult :=
  if args.length < 5 then ⟨missingArgsMsg, none⟩
  else
    let name := args.getD 1 ""
    let date := args.getD 2 ""
    let time := args.getD 3 ""
    let labType := args.getD 4 ""
    if dateFormatOk date then
      if timeFormatOk time then
        let bid := bookingIdOf env.now
        let nb : Booking := ⟨bid, name, date, time, labType, "confirmed", env.nowISO⟩
        match doc.bookings with
        | none => ⟨genericErrorMsg, none⟩
        | some l =>
          let newDoc : Store := ⟨some (l ++ [nb])⟩
          if env.saveOk then ⟨confirmMsg bid name date time labType, some newDoc⟩
          else ⟨saveFailBookMsg, some newDoc⟩
      else ⟨invalidTimeMsg, none⟩
    else ⟨invalidDateMsg, none⟩

/-- The `view` case (src/plugins/lab.js:123-142): `!bookingsData.bookings`
is true exactly for an absent array, and the length test catches the empty
one; otherwise every record is rendered in order. -/
def viewAction (doc : Store) : LabResult :=
  match doc.bookings with
  | none => ⟨noBookingsMsg, none⟩
  | some [] => ⟨noBookingsMsg, none⟩
  | some l => ⟨viewHeader ++ renderFrom 0 l, none⟩

/-- Embedding of `findIndex(b => b.id === cancelId)` followed by the in-place status
assignment at the found index (src/plugins/lab.js:151-158), fused into one
recursion: `none` when no record matches, otherwise the list with the FIRST
matching record's status set to `cancelled` and everything else unchanged. -/
def cancelFirst (cid : String) : List Booking → Option (List Booking)
  | [] => none
  | b :: bs =>
    if b.id = cid then some ({ b with status := "cancelled" } :: bs)
    else (cancelFirst cid bs).map (fun t => b :: t)

/-- The `cancel` case (src/plugins/lab.js:144-167).  `!args[1]` is true for
an absent or empty second token; the throw on an absent `bookings` array (at
`.findIndex`) becomes the generic error reply. -/
def cancelAction (args : List String) (doc : Store) (env : Env) : LabResult :=
  let cid := args.getD 1 ""
  if cid = "" then ⟨provideCancelIdMsg, none⟩
  else
    match doc.bookings with
    | none => ⟨genericErrorMsg, none⟩
    | some l =>
      match cancelFirst cid l with
      | none => ⟨notFoundMsg cid, none⟩
      | some l2 =>
        if env.saveOk then ⟨cancelOkMsg cid, some ⟨some l2⟩⟩
        else ⟨saveFailCancelMsg, some ⟨some l2⟩⟩

/-- The `status` case (src/plugins/lab.js:169-191): `find(b => b.id ===
statusId)` returns the first matching record, which is rendered; the throw on
an absent `bookings` array becomes the generic error reply. -/
def statusAction (args : List String) (doc : Store) (env : Env) : LabResult :=
  let sid := args.getD 1 ""
  if sid = "" then ⟨provideStatusIdMsg, none⟩
  else
    match doc.bookings with
    | none => ⟨genericErrorMsg, none⟩
    | some l =>
      match l.find? (fun b => b.id == sid) with
      | none => ⟨notFoundMsg sid, none⟩
      | some b => ⟨statusMsg env.locale b, none⟩

/-- The switch on the lower-cased action token (src/plugins/lab.js:67-195). -/
def dispatch (action : String) (args : List String) (doc : Store) (env : Env) :
    LabResult :=
  if action = "book" then bookAction args doc env
  else if action = "view" then viewAction doc
  else if action = "cancel" then cancelAction args doc env
  else if action = "status" then statusAction args doc env
  else ⟨unknownMsg, none⟩

/-- The command handler (src/plugins/lab.js:46-200): `!args[0]` (no token, or
an empty first token) yields the help text before any store access; otherwise
the store is loaded and the switch runs on the lower-cased token. -/
def labHandler (args : List String) (doc : Store) (env : Env) : LabResult :=
  match args with
  | [] => ⟨helpMsg, none⟩
  | a0 :: _ =>
    if a0 = "" then ⟨helpMsg, none⟩
    else dispatch (lowerStr a0) args doc env

/-- A full invocation: load the store from the file-read outcome, then run
the handler. -/
def labInvoke (args : List String) (file : FileOutcome) (env : Env) : LabResult :=
  labHandler args (loadBookings file) env

/-- Predicate: `sub` occurs contiguously inside `s`. -/
def strContains (s sub : String) : Prop := ∃ p q : String, s = p ++ (sub ++ q)

/-- A concrete single-invocation environment used by the closed instantiations
below: a fixed 13-digit epoch-millisecond clock reading in 2025, a matching ISO
timestamp, a successful save, and the identity locale rendering. -/
def envW : Env := ⟨1747749600000, "2025-05-20T14:00:00.000Z", true, fun s => s⟩

/-- A concrete one-record store used by the closed instantiations below. -/
def storeW : Store :=
  ⟨some [⟨"LAB111111", "Bob", "2025-05-21", "10:00", "physics", "confirmed",
    "2025-05-19T09:00:00.000Z"⟩]⟩

/-- Bookings used by the duplicate-id instantiation: `dupB` and `dupC` share
one id, `dupA` has another. -/
def dupA : Booking :=
  ⟨"LAB111111", "Ann", "2025-05-21", "10:00", "physics", "confirmed",
    "2025-05-19T09:00:00.000Z"⟩

/-- Second booking of the duplicate-id instantiation (first holder of the
duplicated id). -/
def dupB : Booking :=
  ⟨"LAB222222", "Ben", "2025-05-22", "11:00", "biology", "confirmed",
    "2025-05-19T10:00:00.000Z"⟩

/-- Third booking of the duplicate-id instantiation (second holder of the
duplicated id). -/
def dupC : Booking :=
  ⟨"LAB222222", "Cam", "2025-05-23", "12:00", "chemistry", "confirmed",
    "2025-05-19T11:00:00.000Z"⟩

theorem strContains_here (p sub q : String) : strContains (p ++ (sub ++ q)) sub :=
  ⟨p, q, rfl⟩

theorem strContains_left (t s sub : String) (h : strContains s sub) :
    strContains (t ++ s) sub := by
  obtain ⟨p, q, rfl⟩ := h
  exact ⟨t ++ p, q, by rw [String.append_assoc]⟩

theorem strContains_right (s t sub : String) (h : strContains s sub) :
    strContains (s ++ t) sub := by
  obtain ⟨p, q, rfl⟩ := h
  exact ⟨p, q ++ t, by simp [String.append_assoc]⟩

theorem ne_of_take_two (s t : String) (h : s.data.take 2 ≠ t.data.take 2) :
    s ≠ t := fun e => h (by rw [e])

theorem append_take_two (p s : String) (h : 2 ≤ p.data.length) :
    (p ++ s).data.take 2 = p.data.take 2 := by
  rw [String.data_append]
  exact List.take_append_of_le_length h

theorem strMk_append (cs : List Char) (s : String) :
    (⟨cs⟩ : String) ++ s = ⟨cs ++ s.data⟩ := by
  cases s
  rfl

theorem isDigit_digitOfNat (n : Nat) (h : n < 10) :
    isDigitCh (digitOfNat n) = true := by
  interval_cases n <;> decide

theorem natDec_all_digits (n : Nat) : (natDec n).all isDigitCh = true := by
  induction n using Nat.strong_induction_on with
  | _ n ih =>
    rw [natDec]
    split
    · simpa using isDigit_digitOfNat n (by omega)
    · rw [List.all_append]
      have h1 := ih (n / 10) (Nat.div_lt_self (by omega) (by omega))
      have h2 : isDigitCh (digitOfNat (n % 10)) = true :=
        isDigit_digitOfNat _ (Nat.mod_lt _ (by omega))
      simp [h1, h2]

theorem natDec_length (k : Nat) : ∀ n : Nat, 10 ^ k ≤ n → k + 1 ≤ (natDec n).length := by
  induction k with
  | zero =>
    intro n _
    rw [natDec]
    split
    · simp
    · simp
  | succ k ih =>
    intro n h
    have h10 : ¬ n < 10 := by
      have : (10 : Nat) ≤ 10 ^ (k + 1) := by
        calc (10 : Nat) = 10 ^ 1 := by norm_num
        _ ≤ 10 ^ (k + 1) := Nat.pow_le_pow_right (by omega) (by omega)
      omega
    rw [natDec]
    rw [dif_neg h10]
    rw [List.length_append]
    have hdiv : 10 ^ k ≤ n / 10 := by
      rw [Nat.le_div_iff_mul_le (by omega)]
      calc 10 ^ k * 10 = 10 ^ (k + 1) := by rw [Nat.pow_succ]
      _ ≤ n := h
    have := ih (n / 10) hdiv
    simp only [List.length_cons, List.length_nil]
    omega

theorem sliceLast_length (l : List Char) (h : 6 ≤ l.length) :
    (sliceLast 6 l).length = 6 := by
  simp only [sliceLast, List.length_drop]
  omega

theorem sliceLast_all (l : List Char) (h : l.all isDigitCh = true) :
    (sliceLast 6 l).all isDigitCh = true := by
  rw [List.all_eq_true] at h ⊢
  exact fun c hc => h c ((List.drop_sublist _ _).mem hc)

theorem isLabId_mk (ds : List Char) :
    isLabId ⟨'L' :: 'A' :: 'B' :: ds⟩ = ((ds.length == 6) && ds.all isDigitCh) := rfl

theorem isLabId_bookingIdOf (now : Nat) (h : 100000 ≤ now) :
    isLabId (bookingIdOf now) = true := by
  have hlen6 : 6 ≤ (natDec now).length := by
    have := natDec_length 5 now (by norm_num; omega)
    omega
  have hlen : (sliceLast 6 (natDec now)).length = 6 := sliceLast_length _ hlen6
  have hall : (sliceLast 6 (natDec now)).all isDigitCh = true :=
    sliceLast_all _ (natDec_all_digits now)
  rw [bookingIdOf, show ("LAB" : String) = ⟨['L', 'A', 'B']⟩ from rfl, strMk_append]
  rw [show (['L', 'A', 'B'] ++ (⟨sliceLast 6 (natDec now)⟩ : String).data)
      = 'L' :: 'A' :: 'B' :: sliceLast 6 (natDec now) from rfl]
  rw [isLabId_mk, hlen, hall]
  decide

theorem cancelFirst_eq_none (cid : String) (l : List Booking) :
    cancelFirst cid l = none ↔ ∀ b ∈ l, b.id ≠ cid := by
  induction l with
  | nil => simp [cancelFirst]
  | cons b bs ih =>
    by_cases hb : b.id = cid
    · simp [cancelFirst, hb]
    · simp [cancelFirst, hb, ih]

theorem cancelFirst_no_match (cid : String) (l1 rest : List Booking)
    (h : ∀ b ∈ l1, b.id ≠ cid) :
    cancelFirst cid (l1 ++ rest) = (cancelFirst cid rest).map (fun t => l1 ++ t) := by
  induction l1 with
  | nil => simp
  | cons b bs ih =>
    have hb : b.id ≠ cid := h b (by simp)
    rw [List.cons_append, cancelFirst, if_neg hb,
      ih (fun x hx => h x (by simp [hx]))]
    cases cancelFirst cid rest <;> rfl

theorem cancelFirst_match (cid : String) (b : Booking) (rest : List Booking)
    (hb : b.id = cid) :
    cancelFirst cid (b :: rest) = some ({ b with status := "cancelled" } :: rest) := by
  rw [cancelFirst, if_pos hb]

theorem cancelFirst_idem (cid : String) (l l2 : List Booking)
    (h : cancelFirst cid l = some l2) : cancelFirst cid l2 = some l2 := by
  induction l generalizing l2 with
  | nil => simp [cancelFirst] at h
  | cons b bs ih =>
    by_cases hb : b.id = cid
    · rw [cancelFirst, if_pos hb, Option.some_inj] at h
      subst h
      rw [cancelFirst, if_pos hb]
    · rw [cancelFirst, if_neg hb] at h
      obtain ⟨t, ht, rfl⟩ := Option.map_eq_some'.mp h
      rw [cancelFirst, if_neg hb, ih t ht]
      rfl

theorem cancelFirst_find_cancelled (cid : String) (l l2 : List Booking)
    (h : cancelFirst cid l = some l2) :
    ∃ b, l2.find? (fun x => x.id == cid) = some b ∧ b.status = "cancelled" := by
  induction l generalizing l2 with
  | nil => simp [cancelFirst] at h
  | cons b bs ih =>
    by_cases hb : b.id = cid
    · rw [cancelFirst, if_pos hb, Option.some_inj] at h
      subst h
      refine ⟨{ b with status := "cancelled" }, ?_, rfl⟩
      exact List.find?_cons_of_pos _ (by simp [hb])
    · rw [cancelFirst, if_neg hb] at h
      obtain ⟨t, ht, rfl⟩ := Option.map_eq_some'.mp h
      obtain ⟨x, hx, hxs⟩ := ih t ht
      refine ⟨x, ?_, hxs⟩
      rw [List.find?_cons_of_neg _ (by simp [hb])]
      exact hx

theorem find_first_match (cid : String) (l1 : List Booking) (b1 : Booking)
    (rest : List Booking) (h : ∀ b ∈ l1, b.id ≠ cid) (hb : b1.id = cid) :
    (l1 ++ b1 :: rest).find? (fun x => x.id == cid) = some b1 := by
  induction l1 with
  | nil =>
    rw [List.nil_append]
    exact List.find?_cons_of_pos _ (by simp [hb])
  | cons b bs ih =>
    rw [List.cons_append]
    have hbne : b.id ≠ cid := h b (by simp)
    rw [List.find?_cons_of_neg _ (by simp [hbne])]
    exact ih (fun x hx => h x (by simp [hx]))

theorem bookAction_short (args : List String) (doc : Store) (env : Env)
    (h : args.length < 5) : bookAction args doc env = ⟨missingArgsMsg, none⟩ := by
  unfold bookAction
  rw [if_pos h]

theorem bookAction_some (args : List String) (doc : Store) (env : Env)
    (name date time labType : String) (l : List Booking) (h1 : args.getD 1 "" = name)
    (h2 : args.getD 2 "" = date) (h3 : args.getD 3 "" = time)
    (h4 : args.getD 4 "" = labType) (hlen : ¬ args.length < 5)
    (hdoc : doc.bookings = some l) :
    bookAction args doc env =
      (if dateFormatOk date then
        if timeFormatOk time then
          if env.saveOk then
            ⟨confirmMsg (bookingIdOf env.now) name date time labType,
              some ⟨some (l ++ [⟨bookingIdOf env.now, name, date, time, labType,
                "confirmed", env.nowISO⟩])⟩⟩
          else
            ⟨saveFailBookMsg,
              some ⟨some (l ++ [⟨bookingIdOf env.now, name, date, time, labType,
                "confirmed", env.nowISO⟩])⟩⟩
        else ⟨invalidTimeMsg, none⟩
      else ⟨invalidDateMsg, none⟩) := by
  subst h1 h2 h3 h4
  unfold bookAction
  rw [if_neg hlen, hdoc]

theorem bookAction_bookingsNone (args : List String) (doc : Store) (env : Env)
    (date time : String) (h2 : args.getD 2 "" = date) (h3 : args.getD 3 "" = time)
    (hlen : ¬ args.length < 5) (hdoc : doc.bookings = none) :
    bookAction args doc env =
      (if dateFormatOk date then
        if timeFormatOk time then ⟨genericErrorMsg, none⟩
        else ⟨invalidTimeMsg, none⟩
      else ⟨invalidDateMsg, none⟩) := by
  subst h2 h3
  unfold bookAction
  rw [if_neg hlen, hdoc]

theorem cancelAction_noId (args : List String) (doc : Store) (env : Env)
    (h : args.getD 1 "" = "") : cancelAction args doc env = ⟨provideCancelIdMsg, none⟩ := by
  unfold cancelAction
  rw [if_pos h]

theorem cancelAction_some (args : List String) (doc : Store) (env : Env)
    (cid : String) (l : List Booking) (hget : args.getD 1 "" = cid) (hcid : cid ≠ "")
    (hdoc : doc.bookings = some l) :
    cancelAction args doc env =
      (match cancelFirst cid l with
      | none => ⟨notFoundMsg cid, none⟩
      | some l2 =>
        if env.saveOk then ⟨cancelOkMsg cid, some ⟨some l2⟩⟩
        else ⟨saveFailCancelMsg, some ⟨some l2⟩⟩) := by
  subst hget
  unfold cancelAction
  rw [if_neg hcid, hdoc]

theorem cancelAction_bookingsNone (args : List String) (doc : Store) (env : Env)
    (cid : String) (hget : args.getD 1 "" = cid) (hcid : cid ≠ "")
    (hdoc : doc.bookings = none) :
    cancelAction args doc env = ⟨genericErrorMsg, none⟩ := by
  subst hget
  unfold cancelAction
  rw [if_neg hcid, hdoc]

theorem statusAction_noId (args : List String) (doc : Store) (env : Env)
    (h : args.getD 1 "" = "") : statusAction args doc env = ⟨provideStatusIdMsg, none⟩ := by
  unfold statusAction
  rw [if_pos h]

theorem statusAction_some (args : List String) (doc : Store) (env : Env)
    (sid : String) (l : List Booking) (hget : args.getD 1 "" = sid) (hsid : sid ≠ "")
    (hdoc : doc.bookings = some l) :
    statusAction args doc env =
      (match l.find? (fun b => b.id == sid) with
      | none => ⟨notFoundMsg sid, none⟩
      | some b => ⟨statusMsg env.locale b, none⟩) := by
  subst hget
  unfold statusAction
  rw [if_neg hsid, hdoc]

theorem statusAction_bookingsNone (args : List String) (doc : Store) (env : Env)
    (sid : String) (hget : args.getD 1 "" = sid) (hsid : sid ≠ "")
    (hdoc : doc.bookings = none) :
    statusAction args doc env = ⟨genericErrorMsg, none⟩ := by
  subst hget
  unfold statusAction
  rw [if_neg hsid, hdoc]

theorem viewAction_saved (doc : Store) : (viewAction doc).saved = none := by
  unfold viewAction
  rcases doc.bookings with _ | (_ | ⟨b, l⟩) <;> rfl

theorem statusAction_saved (args : List String) (doc : Store) (env : Env) :
    (statusAction args doc env).saved = none := by
  by_cases hs : args.getD 1 "" = ""
  · rw [statusAction_noId args doc env hs]
  · rcases hdoc : doc.bookings with _ | l
    · rw [statusAction_bookingsNone args doc env _ rfl hs hdoc]
    · rw [statusAction_some args doc env _ l rfl hs hdoc]
      rcases h : l.find? (fun b => b.id == args.getD 1 "") with _ | b <;> rw [h]

theorem confirmMsg_ne (bid name date time labType m : String)
    (hm : m.data.take 2 ≠ ['*', '✅']) : confirmMsg bid name date time labType ≠ m := by
  refine ne_of_take_two _ _ ?_
  rw [confirmMsg, append_take_two _ _ (by decide)]
  rw [show ("*✅ Lab Booking Confirmed!*\n\n*Booking ID:* " : String).data.take 2
      = ['*', '✅'] from by decide]
  exact Ne.symm hm

theorem viewReply_ne (s m : String) (hm : m.data.take 2 ≠ ['*', '📋']) :
    viewHeader ++ s ≠ m := by
  refine ne_of_take_two _ _ ?_
  rw [append_take_two _ _ (by decide)]
  rw [show (viewHeader : String).data.take 2 = ['*', '📋'] from by decide]
  exact Ne.symm hm

/-- C7: `loadBookings` never propagates an error: a successfully read and
parsed file yields exactly the parsed document, and every read or parse
failure yields exactly the empty document (bookings := []). -/
theorem loadBookings_never_errors (o : FileOutcome) :
    (∃ d, o = FileOutcome.validJson d ∧ loadBookings o = d) ∨
    (loadBookings o = emptyStore ∧
      (o = FileOutcome.readError ∨ o = FileOutcome.parseError)) := by
  cases o with
  | validJson d => exact Or.inl ⟨d, rfl, rfl⟩
  | readError => exact Or.inr ⟨rfl, Or.inl rfl⟩
  | parseError => exact Or.inr ⟨rfl, Or.inr rfl⟩

/-- C3: the `book` action replies with the date-validation message and saves
nothing precisely when the date fails the regex `^\d\x7b4\x7d-\d\x7b2\x7d-\d\x7b2\x7d$`;
"2025-5-1" is rejected, "2025-05-01" is accepted, and the non-calendar
"2025-13-99" is accepted. -/
theorem book_date_validation (name date time labType : String) (rest : List String)
    (doc : Store) (env : Env) :
    (labHandler ("book" :: name :: date :: time :: labType :: rest) doc env =
        ⟨invalidDateMsg, none⟩ ↔ dateFormatOk date = false) ∧
    dateFormatOk "2025-5-1" = false ∧ dateFormatOk "2025-05-01" = true ∧
    dateFormatOk "2025-13-99" = true := by
  refine ⟨?_, by decide, by decide, by decide⟩
  have hred : labHandler ("book" :: name :: date :: time :: labType :: rest) doc env
      = bookAction ("book" :: name :: date :: time :: labType :: rest) doc env := rfl
  have hlen : ¬ ("book" :: name :: date :: time :: labType :: rest).length < 5 := by
    simp only [List.length_cons]
    omega
  rw [hred]
  by_cases hd : dateFormatOk date
  · simp only [hd, Bool.true_eq_false, iff_false]
    intro hr
    rcases hdoc : doc.bookings with _ | l
    · rw [bookAction_bookingsNone ("book" :: name :: date :: time :: labType :: rest)
        doc env date time rfl rfl hlen hdoc, if_pos hd] at hr
      by_cases htt : timeFormatOk time
      · rw [if_pos htt] at hr
        have hmsg : genericErrorMsg = invalidDateMsg := congrArg LabResult.reply hr
        exact absurd hmsg (by decide)
      · rw [if_neg htt] at hr
        have hmsg : invalidTimeMsg = invalidDateMsg := congrArg LabResult.reply hr
        exact absurd hmsg (by decide)
    · rw [bookAction_some ("book" :: name :: date :: time :: labType :: rest)
        doc env name date time labType l rfl rfl rfl rfl hlen hdoc, if_pos hd] at hr
      by_cases htt : timeFormatOk time
      · rw [if_pos htt] at hr
        by_cases hsv : env.saveOk
        · rw [if_pos hsv] at hr
          have hmsg : confirmMsg (bookingIdOf env.now) name date time labType
              = invalidDateMsg := congrArg LabResult.reply hr
          exact absurd hmsg (confirmMsg_ne _ _ _ _ _ _ (by decide))
        · rw [if_neg hsv] at hr
          have hmsg : saveFailBookMsg = invalidDateMsg := congrArg LabResult.reply hr
          exact absurd hmsg (by decide)
      · rw [if_neg htt] at hr
        have hmsg : invalidTimeMsg = invalidDateMsg := congrArg LabResult.reply hr
        exact absurd hmsg (by decide)
  · have hd' : dateFormatOk date = false := by simpa using hd
    simp only [hd', eq_self_iff_true, iff_true]
    rcases hdoc : doc.bookings with _ | l
    · rw [bookAction_bookingsNone ("book" :: name :: date :: time :: labType :: rest)
        doc env date time rfl rfl hlen hdoc, if_neg hd]
    · rw [bookAction_some ("book" :: name :: date :: time :: labType :: rest)
        doc env name date time labType l rfl rfl rfl rfl hlen hdoc, if_neg hd]

/-- Closed instantiation of the date-validation theorem at the spec's own
examples. -/
theorem book_date_validation_witness :
    (labHandler ["book", "Alice", "2025-5-1", "14:00", "chemistry"] emptyStore envW =
        ⟨invalidDateMsg, none⟩ ↔ dateFormatOk "2025-5-1" = false) ∧
    dateFormatOk "2025-5-1" = false ∧ dateFormatOk "2025-05-01" = true ∧
    dateFormatOk "2025-13-99" = true :=
  book_date_validation "Alice" "2025-5-1" "14:00" "chemistry" [] emptyStore envW

/-- C4: once the date is well-formed, the `book` action replies with the
time-validation message and saves nothing precisely when the time fails the
regex `^\d\x7b1,2\x7d:\d\x7b2\x7d$`; "9:5" is rejected while "09:05", "9:05"
and the out-of-range "25:99" are accepted. -/
theorem book_time_validation (name date time labType : String) (rest : List String)
    (doc : Store) (env : Env) :
    (dateFormatOk date = true →
      (labHandler ("book" :: name :: date :: time :: labType :: rest) doc env =
          ⟨invalidTimeMsg, none⟩ ↔ timeFormatOk time = false)) ∧
    timeFormatOk "9:5" = false ∧ timeFormatOk "09:05" = true ∧
    timeFormatOk "9:05" = true ∧ timeFormatOk "25:99" = true := by
  refine ⟨?_, by decide, by decide, by decide, by decide⟩
  intro hd
  have hred : labHandler ("book" :: name :: date :: time :: labType :: rest) doc env
      = bookAction ("book" :: name :: date :: time :: labType :: rest) doc env := rfl
  have hlen : ¬ ("book" :: name :: date :: time :: labType :: rest).length < 5 := by
    simp only [List.length_cons]
    omega
  rw [hred]
  by_cases htt : timeFormatOk time
  · simp only [htt, Bool.true_eq_false, iff_false]
    intro hr
    rcases hdoc : doc.bookings with _ | l
    · rw [bookAction_bookingsNone ("book" :: name :: date :: time :: labType :: rest)
        doc env date time rfl rfl hlen hdoc, if_pos hd, if_pos htt] at hr
      have hmsg : genericErrorMsg = invalidTimeMsg := congrArg LabResult.reply hr
      exact absurd hmsg (by decide)
    · rw [bookAction_some ("book" :: name :: date :: time :: labType :: rest)
        doc env name date time labType l rfl rfl rfl rfl hlen hdoc,
        if_pos hd, if_pos htt] at hr
      by_cases hsv : env.saveOk
      · rw [if_pos hsv] at hr
        have hmsg : confirmMsg (bookingIdOf env.now) name date time labType
            = invalidTimeMsg := congrArg LabResult.reply hr
        exact absurd hmsg (confirmMsg_ne _ _ _ _ _ _ (by decide))
      · rw [if_neg hsv] at hr
        have hmsg : saveFailBookMsg = invalidTimeMsg := congrArg LabResult.reply hr
        exact absurd hmsg (by decide)
  · have htt' : timeFormatOk time = false := by simpa using htt
    simp only [htt', eq_self_iff_true, iff_true]
    rcases hdoc : doc.bookings with _ | l
    · rw [bookAction_bookingsNone ("book" :: name :: date :: time :: labType :: rest)
        doc env date time rfl rfl hlen hdoc, if_pos hd, if_neg htt]
    · rw [bookAction_some ("book" :: name :: date :: time :: labType :: rest)
        doc env name date time labType l rfl rfl rfl rfl hlen hdoc,
        if_pos hd, if_neg htt]

theorem cancelAction_found (args : List String) (doc : Store) (env : Env)
    (cid : String) (l l2 : List Booking) (hget : args.getD 1 "" = cid)
    (hcid : cid ≠ "") (hdoc : doc.bookings = some l)
    (hcf : cancelFirst cid l = some l2) :
    cancelAction args doc env =
      (if env.saveOk then ⟨cancelOkMsg cid, some ⟨some l2⟩⟩
      else ⟨saveFailCancelMsg, some ⟨some l2⟩⟩) := by
  rw [cancelAction_some args doc env cid l hget hcid hdoc, hcf]

/-- C2: cancelling an id that matches no record of the store replies with the
not-found message carrying that id, and no save is performed (the persisted
file is untouched). -/
theorem cancel_not_found (cid : String) (rest : List String) (doc : Store)
    (env : Env) (l : List Booking) (hdoc : doc.bookings = some l) (hcid : cid ≠ "")
    (h : ∀ b ∈ l, b.id ≠ cid) :
    labHandler ("cancel" :: cid :: rest) doc env = ⟨notFoundMsg cid, none⟩ ∧
    strContains (notFoundMsg cid) cid := by
  constructor
  · have hred : labHandler ("cancel" :: cid :: rest) doc env
        = cancelAction ("cancel" :: cid :: rest) doc env := rfl
    rw [hred, cancelAction_some ("cancel" :: cid :: rest) doc env cid l rfl hcid hdoc,
      (cancelFirst_eq_none cid l).mpr h]
  · exact strContains_here "*Booking with ID " cid " not found.*"

/-- Closed instantiation of the cancel-not-found theorem: cancelling an id
absent from a one-record store. -/
theorem cancel_not_found_witness :
    labHandler ["cancel", "LAB999999"] storeW envW = ⟨notFoundMsg "LAB999999", none⟩ ∧
    strContains (notFoundMsg "LAB999999") "LAB999999" :=
  cancel_not_found "LAB999999" [] storeW envW _ rfl (by decide) (by decide)

/-- C5: on any store containing a record with the given id, `cancel` succeeds
and saves the store with the first such record cancelled; applying `cancel`
again with the same id on the saved store succeeds again and saves the very
same store, whose first record with that id has status `cancelled`. -/
theorem cancel_idempotent (cid : String) (rest : List String) (doc : Store)
    (env : Env) (l : List Booking) (hdoc : doc.bookings = some l) (hcid : cid ≠ "")
    (hsave : env.saveOk = true) (hmem : ∃ b ∈ l, b.id = cid) :
    ∃ l2, cancelFirst cid l = some l2 ∧
      labHandler ("cancel" :: cid :: rest) doc env
        = ⟨cancelOkMsg cid, some ⟨some l2⟩⟩ ∧
      labHandler ("cancel" :: cid :: rest) ⟨some l2⟩ env
        = ⟨cancelOkMsg cid, some ⟨some l2⟩⟩ ∧
      ∃ b, l2.find? (fun x => x.id == cid) = some b ∧ b.status = "cancelled" := by
  have hfind : cancelFirst cid l ≠ none := by
    rw [Ne, cancelFirst_eq_none]
    push_neg
    obtain ⟨b, hb, hid⟩ := hmem
    exact ⟨b, hb, hid⟩
  obtain ⟨l2, hl2⟩ := Option.ne_none_iff_exists'.mp hfind
  refine ⟨l2, hl2, ?_, ?_, cancelFirst_find_cancelled cid l l2 hl2⟩
  · have hred : labHandler ("cancel" :: cid :: rest) doc env
        = cancelAction ("cancel" :: cid :: rest) doc env := rfl
    rw [hred,
      cancelAction_found ("cancel" :: cid :: rest) doc env cid l l2 rfl hcid hdoc hl2,
      if_pos hsave]
  · have hred : labHandler ("cancel" :: cid :: rest) (⟨some l2⟩ : Store) env
        = cancelAction ("cancel" :: cid :: rest) ⟨some l2⟩ env := rfl
    rw [hred,
      cancelAction_found ("cancel" :: cid :: rest) ⟨some l2⟩ env cid l2 l2 rfl hcid rfl
        (cancelFirst_idem cid l l2 hl2),
      if_pos hsave]

/-- Closed instantiation of the idempotence theorem on a one-record store. -/
theorem cancel_idempotent_witness :
    ∃ l2, cancelFirst "LAB111111" (storeW.bookings.getD []) = some l2 ∧
      labHandler ["cancel", "LAB111111"] storeW envW
        = ⟨cancelOkMsg "LAB111111", some ⟨some l2⟩⟩ ∧
      labHandler ["cancel", "LAB111111"] ⟨some l2⟩ envW
        = ⟨cancelOkMsg "LAB111111", some ⟨some l2⟩⟩ ∧
      ∃ b, l2.find? (fun x => x.id == "LAB111111") = some b ∧
        b.status = "cancelled" :=
  cancel_idempotent "LAB111111" [] storeW envW _ rfl (by decide) rfl (by decide)

/-- Closed instantiation of the time-validation theorem at the spec's own
examples, with the date hypothesis discharged on a well-formed date. -/
theorem book_time_validation_witness :
    (labHandler ["book", "Alice", "2025-05-20", "9:5", "chemistry"] emptyStore envW =
        ⟨invalidTimeMsg, none⟩ ↔ timeFormatOk "9:5" = false) ∧
    timeFormatOk "9:5" = false ∧ timeFormatOk "09:05" = true ∧
    timeFormatOk "9:05" = true ∧ timeFormatOk "25:99" = true :=
  have h := book_time_validation "Alice" "2025-05-20" "9:5" "chemistry" [] emptyStore envW
  ⟨h.1 (by decide), h.2.1, h.2.2.1, h.2.2.2.1, h.2.2.2.2⟩

/-- C1: a `book` invocation with all four arguments present and passing the
format checks appends, when the save succeeds, exactly one record to the end
of the bookings list, carrying the four arguments verbatim, status
`confirmed`, and an id equal to `LAB` plus the last six digits of the
millisecond timestamp (matching `LAB` + six digits whenever the timestamp has
at least six digits, as every real epoch-millisecond reading does); the
confirmation reply contains that id and all four field values. -/
theorem book_appends_record (name date time labType : String) (rest : List String)
    (doc : Store) (env : Env) (l : List Booking) (hdoc : doc.bookings = some l)
    (hd : dateFormatOk date = true) (ht : timeFormatOk time = true)
    (hsave : env.saveOk = true) (hnow : 100000 ≤ env.now) :
    labHandler ("book" :: name :: date :: time :: labType :: rest) doc env =
      ⟨confirmMsg (bookingIdOf env.now) name date time labType,
        some ⟨some (l ++ [⟨bookingIdOf env.now, name, date, time, labType,
          "confirmed", env.nowISO⟩])⟩⟩ ∧
    isLabId (bookingIdOf env.now) = true ∧
    strContains (confirmMsg (bookingIdOf env.now) name date time labType)
      (bookingIdOf env.now) ∧
    strContains (confirmMsg (bookingIdOf env.now) name date time labType) name ∧
    strContains (confirmMsg (bookingIdOf env.now) name date time labType) date ∧
    strContains (confirmMsg (bookingIdOf env.now) name date time labType) time ∧
    strContains (confirmMsg (bookingIdOf env.now) name date time labType) labType := by
  refine ⟨?_, isLabId_bookingIdOf env.now hnow, ?_, ?_, ?_, ?_, ?_⟩
  · have hred : labHandler ("book" :: name :: date :: time :: labType :: rest) doc env
        = bookAction ("book" :: name :: date :: time :: labType :: rest) doc env := rfl
    have hlen : ¬ ("book" :: name :: date :: time :: labType :: rest).length < 5 := by
      simp only [List.length_cons]
      omega
    rw [hred, bookAction_some ("book" :: name :: date :: time :: labType :: rest)
      doc env name date time labType l rfl rfl rfl rfl hlen hdoc,
      if_pos hd, if_pos ht, if_pos hsave]
  · exact strContains_here "*✅ Lab Booking Confirmed!*\n\n*Booking ID:* "
      (bookingIdOf env.now) _
  · exact strContains_left _ _ _ (strContains_left _ _ _
      (strContains_here "\n*Customer:* " name _))
  · exact strContains_left _ _ _ (strContains_left _ _ _ (strContains_left _ _ _
      (strContains_left _ _ _ (strContains_here "\n*Date:* " date _))))
  · exact strContains_left _ _ _ (strContains_left _ _ _ (strContains_left _ _ _
      (strContains_left _ _ _ (strContains_left _ _ _ (strContains_left _ _ _
        (strContains_here "\n*Time:* " time _))))))
  · exact strContains_left _ _ _ (strContains_left _ _ _ (strContains_left _ _ _
      (strContains_left _ _ _ (strContains_left _ _ _ (strContains_left _ _ _
        (strContains_left _ _ _ (strContains_left _ _ _
          (strContains_here "\n*Lab Type:* " labType _))))))))

/-- Closed instantiation of the booking theorem: the spec's scenario
`book Alice 2025-05-20 14:00 chemistry` against the empty store. -/
theorem book_appends_record_witness :
    labHandler ["book", "Alice", "2025-05-20", "14:00", "chemistry"] emptyStore envW =
      ⟨confirmMsg (bookingIdOf envW.now) "Alice" "2025-05-20" "14:00" "chemistry",
        some ⟨some ([] ++ [⟨bookingIdOf envW.now, "Alice", "2025-05-20", "14:00",
          "chemistry", "confirmed", envW.nowISO⟩])⟩⟩ ∧
    isLabId (bookingIdOf envW.now) = true ∧
    strContains (confirmMsg (bookingIdOf envW.now) "Alice" "2025-05-20" "14:00"
      "chemistry") (bookingIdOf envW.now) ∧
    strContains (confirmMsg (bookingIdOf envW.now) "Alice" "2025-05-20" "14:00"
      "chemistry") "Alice" ∧
    strContains (confirmMsg (bookingIdOf envW.now) "Alice" "2025-05-20" "14:00"
      "chemistry") "2025-05-20" ∧
    strContains (confirmMsg (bookingIdOf envW.now) "Alice" "2025-05-20" "14:00"
      "chemistry") "14:00" ∧
    strContains (confirmMsg (bookingIdOf envW.now) "Alice" "2025-05-20" "14:00"
      "chemistry") "chemistry" :=
  book_appends_record "Alice" "2025-05-20" "14:00" "chemistry" [] emptyStore envW []
    rfl (by decide) (by decide) rfl (by decide)

theorem bookAction_first_irrelevant (x y : String) (rest : List String)
    (doc : Store) (env : Env) :
    bookAction (x :: rest) doc env = bookAction (y :: rest) doc env := by
  unfold bookAction
  simp only [List.length_cons, List.getD_cons_succ]

theorem cancelAction_first_irrelevant (x y : String) (rest : List String)
    (doc : Store) (env : Env) :
    cancelAction (x :: rest) doc env = cancelAction (y :: rest) doc env := by
  unfold cancelAction
  simp only [List.getD_cons_succ]

theorem statusAction_first_irrelevant (x y : String) (rest : List String)
    (doc : Store) (env : Env) :
    statusAction (x :: rest) doc env = statusAction (y :: rest) doc env := by
  unfold statusAction
  simp only [List.getD_cons_succ]

theorem dispatch_first_irrelevant (action x y : String) (rest : List String)
    (doc : Store) (env : Env) :
    dispatch action (x :: rest) doc env = dispatch action (y :: rest) doc env := by
  unfold dispatch
  split_ifs
  · exact bookAction_first_irrelevant x y rest doc env
  · rfl
  · exact cancelAction_first_irrelevant x y rest doc env
  · exact statusAction_first_irrelevant x y rest doc env
  · rfl

/-- C6: an empty argument list yields the static help text, independent of the
store and with no save; otherwise the result depends on the first token only
through its lower-casing (the action keyword is case-insensitive), and a first
token lowering to none of `book`, `view`, `cancel`, `status` yields the static
unknown-command reply with no save. -/
theorem router_dispatch (doc : Store) (env : Env) :
    labHandler [] doc env = ⟨helpMsg, none⟩ ∧
    (∀ a0 a0' rest, a0 ≠ "" → a0' ≠ "" → lowerStr a0 = lowerStr a0' →
      labHandler (a0 :: rest) doc env = labHandler (a0' :: rest) doc env) ∧
    (∀ a0 rest, a0 ≠ "" →
      lowerStr a0 ≠ "book" → lowerStr a0 ≠ "view" → lowerStr a0 ≠ "cancel" →
      lowerStr a0 ≠ "status" →
      labHandler (a0 :: rest) doc env = ⟨unknownMsg, none⟩) := by
  refine ⟨rfl, ?_, ?_⟩
  · intro a0 a0' rest h0 h0' hlow
    show (if a0 = "" then (⟨helpMsg, none⟩ : LabResult)
        else dispatch (lowerStr a0) (a0 :: rest) doc env)
      = (if a0' = "" then (⟨helpMsg, none⟩ : LabResult)
        else dispatch (lowerStr a0') (a0' :: rest) doc env)
    rw [if_neg h0, if_neg h0', hlow]
    exact dispatch_first_irrelevant (lowerStr a0') a0 a0' rest doc env
  · intro a0 rest h0 hb hv hc hs
    show (if a0 = "" then (⟨helpMsg, none⟩ : LabResult)
        else dispatch (lowerStr a0) (a0 :: rest) doc env) = ⟨unknownMsg, none⟩
    rw [if_neg h0]
    unfold dispatch
    rw [if_neg hb, if_neg hv, if_neg hc, if_neg hs]

/-- Closed instantiation of the router theorem: an upper-cased keyword behaves
as the lower-cased one, and an unrecognized keyword gets the unknown reply. -/
theorem router_dispatch_witness :
    labHandler ["BOOK", "Alice", "2025-05-20", "14:00", "chemistry"] storeW envW
      = labHandler ["book", "Alice", "2025-05-20", "14:00", "chemistry"] storeW envW ∧
    labHandler ["frobnicate"] storeW envW = ⟨unknownMsg, none⟩ :=
  ⟨(router_dispatch storeW envW).2.1 "BOOK" "book"
      ["Alice", "2025-05-20", "14:00", "chemistry"] (by decide) (by decide) (by decide),
   (router_dispatch storeW envW).2.2 "frobnicate" [] (by decide) (by decide)
      (by decide) (by decide) (by decide)⟩

/-- C9: when several records share the target id, `cancel` updates exactly the
first one in store order (every later duplicate is untouched), and `status`
renders exactly the first one. -/
theorem duplicate_ids_first_match (cid : String) (rest : List String) (env : Env)
    (l1 l2 l3 : List Booking) (b1 b2 : Booking) (hcid : cid ≠ "")
    (h1 : ∀ b ∈ l1, b.id ≠ cid) (hb1 : b1.id = cid) (_hb2 : b2.id = cid)
    (hsave : env.saveOk = true) :
    labHandler ("cancel" :: cid :: rest) ⟨some (l1 ++ b1 :: (l2 ++ b2 :: l3))⟩ env =
      ⟨cancelOkMsg cid,
        some ⟨some (l1 ++ { b1 with status := "cancelled" } :: (l2 ++ b2 :: l3))⟩⟩ ∧
    labHandler ("status" :: cid :: rest) ⟨some (l1 ++ b1 :: (l2 ++ b2 :: l3))⟩ env =
      ⟨statusMsg env.locale b1, none⟩ := by
  have hcf : cancelFirst cid (l1 ++ b1 :: (l2 ++ b2 :: l3))
      = some (l1 ++ { b1 with status := "cancelled" } :: (l2 ++ b2 :: l3)) := by
    rw [cancelFirst_no_match cid l1 _ h1, cancelFirst_match cid b1 _ hb1]
    rfl
  constructor
  · have hred : labHandler ("cancel" :: cid :: rest)
        (⟨some (l1 ++ b1 :: (l2 ++ b2 :: l3))⟩ : Store) env
        = cancelAction ("cancel" :: cid :: rest)
          ⟨some (l1 ++ b1 :: (l2 ++ b2 :: l3))⟩ env := rfl
    rw [hred, cancelAction_found ("cancel" :: cid :: rest)
        ⟨some (l1 ++ b1 :: (l2 ++ b2 :: l3))⟩ env cid _ _ rfl hcid rfl hcf,
      if_pos hsave]
  · have hred : labHandler ("status" :: cid :: rest)
        (⟨some (l1 ++ b1 :: (l2 ++ b2 :: l3))⟩ : Store) env
        = statusAction ("status" :: cid :: rest)
          ⟨some (l1 ++ b1 :: (l2 ++ b2 :: l3))⟩ env := rfl
    rw [hred, statusAction_some ("status" :: cid :: rest)
        ⟨some (l1 ++ b1 :: (l2 ++ b2 :: l3))⟩ env cid _ rfl hcid rfl,
      find_first_match cid l1 b1 _ h1 hb1]

/-- Closed instantiation of the duplicate-id theorem on a three-record store
whose last two records share an id. -/
theorem duplicate_ids_first_match_witness :
    labHandler ["cancel", "LAB222222"] ⟨some ([dupA] ++ dupB :: ([] ++ dupC :: []))⟩
        envW =
      ⟨cancelOkMsg "LAB222222",
        some ⟨some ([dupA] ++ { dupB with status := "cancelled" }
          :: ([] ++ dupC :: []))⟩⟩ ∧
    labHandler ["status", "LAB222222"] ⟨some ([dupA] ++ dupB :: ([] ++ dupC :: []))⟩
        envW =
      ⟨statusMsg envW.locale dupB, none⟩ :=
  duplicate_ids_first_match "LAB222222" [] envW [dupA] [] [] dupB dupC
    (by decide) (by decide) (by decide) (by decide) rfl

theorem renderOne_contains (i : Nat) (b : Booking) :
    strContains (renderOne i b) b.id ∧ strContains (renderOne i b) b.customerName ∧
    strContains (renderOne i b) b.date ∧ strContains (renderOne i b) b.time ∧
    strContains (renderOne i b) b.labType ∧ strContains (renderOne i b) b.status := by
  refine ⟨?_, ?_, ?_, ?_, ?_, ?_⟩
  · exact strContains_left _ _ _ (strContains_left _ _ _
      (strContains_here "*\nID: " b.id _))
  · exact strContains_left _ _ _ (strContains_left _ _ _ (strContains_left _ _ _
      (strContains_left _ _ _ (strContains_here "\nCustomer: " b.customerName _))))
  · exact strContains_left _ _ _ (strContains_left _ _ _ (strContains_left _ _ _
      (strContains_left _ _ _ (strContains_left _ _ _ (strContains_left _ _ _
        (strContains_here "\nDate: " b.date _))))))
  · exact strContains_left _ _ _ (strContains_left _ _ _ (strContains_left _ _ _
      (strContains_left _ _ _ (strContains_left _ _ _ (strContains_left _ _ _
        (strContains_left _ _ _ (strContains_left _ _ _
          (strContains_here "\nTime: " b.time _))))))))
  · exact strContains_left _ _ _ (strContains_left _ _ _ (strContains_left _ _ _
      (strContains_left _ _ _ (strContains_left _ _ _ (strContains_left _ _ _
        (strContains_left _ _ _ (strContains_left _ _ _ (strContains_left _ _ _
          (strContains_left _ _ _
            (strContains_here "\nLab Type: " b.labType _))))))))))
  · exact strContains_left _ _ _ (strContains_left _ _ _ (strContains_left _ _ _
      (strContains_left _ _ _ (strContains_left _ _ _ (strContains_left _ _ _
        (strContains_left _ _ _ (strContains_left _ _ _ (strContains_left _ _ _
          (strContains_left _ _ _ (strContains_left _ _ _ (strContains_left _ _ _
            (strContains_here "\nStatus: " b.status "\n\n"))))))))))))

theorem renderFrom_contains (l : List Booking) :
    ∀ i, ∀ b ∈ l,
      strContains (renderFrom i l) b.id ∧
      strContains (renderFrom i l) b.customerName ∧
      strContains (renderFrom i l) b.date ∧
      strContains (renderFrom i l) b.time ∧
      strContains (renderFrom i l) b.labType ∧
      strContains (renderFrom i l) b.status := by
  induction l with
  | nil =>
    intro i b hb
    cases hb
  | cons x xs ih =>
    intro i b hb
    rcases List.mem_cons.mp hb with rfl | hmem
    · have h := renderOne_contains i b
      exact ⟨strContains_right _ _ _ h.1, strContains_right _ _ _ h.2.1,
        strContains_right _ _ _ h.2.2.1, strContains_right _ _ _ h.2.2.2.1,
        strContains_right _ _ _ h.2.2.2.2.1, strContains_right _ _ _ h.2.2.2.2.2⟩
    · have h := ih (i + 1) b hmem
      exact ⟨strContains_left _ _ _ h.1, strContains_left _ _ _ h.2.1,
        strContains_left _ _ _ h.2.2.1, strContains_left _ _ _ h.2.2.2.1,
        strContains_left _ _ _ h.2.2.2.2.1, strContains_left _ _ _ h.2.2.2.2.2⟩

/-- C8: `view` replies with the no-bookings message exactly when the bookings
list is absent or empty, never saving (so never creating the file); otherwise
it replies with the header followed by every record rendered in store order
(the record at 0-based position i numbered i+1), each rendering carrying the
record's id, customer, date, time, lab type and status. -/
theorem view_renders_all (rest : List String) (doc : Store) (env : Env) :
    (labHandler ("view" :: rest) doc env).saved = none ∧
    ((doc.bookings = none ∨ doc.bookings = some []) →
      labHandler ("view" :: rest) doc env = ⟨noBookingsMsg, none⟩) ∧
    (∀ l, doc.bookings = some l → l ≠ [] →
      labHandler ("view" :: rest) doc env = ⟨viewHeader ++ renderFrom 0 l, none⟩ ∧
      ∀ b ∈ l,
        strContains (viewHeader ++ renderFrom 0 l) b.id ∧
        strContains (viewHeader ++ renderFrom 0 l) b.customerName ∧
        strContains (viewHeader ++ renderFrom 0 l) b.date ∧
        strContains (viewHeader ++ renderFrom 0 l) b.time ∧
        strContains (viewHeader ++ renderFrom 0 l) b.labType ∧
        strContains (viewHeader ++ renderFrom 0 l) b.status) ∧
    ((labHandler ("view" :: rest) doc env).reply = noBookingsMsg →
      doc.bookings = none ∨ doc.bookings = some []) := by
  have hred : labHandler ("view" :: rest) doc env = viewAction doc := rfl
  rw [hred]
  refine ⟨viewAction_saved doc, ?_, ?_, ?_⟩
  · rintro (h | h) <;> (unfold viewAction; rw [h])
  · intro l hdoc hne
    constructor
    · cases l with
      | nil => exact absurd rfl hne
      | cons b bs =>
        unfold viewAction
        rw [hdoc]
    · intro b hb
      have h := renderFrom_contains l 0 b hb
      exact ⟨strContains_left _ _ _ h.1, strContains_left _ _ _ h.2.1,
        strContains_left _ _ _ h.2.2.1, strContains_left _ _ _ h.2.2.2.1,
        strContains_left _ _ _ h.2.2.2.2.1, strContains_left _ _ _ h.2.2.2.2.2⟩
  · intro hrep
    rcases hdoc : doc.bookings with _ | l
    · exact Or.inl rfl
    · cases l with
      | nil => exact Or.inr rfl
      | cons b bs =>
        exfalso
        rw [show viewAction doc = ⟨viewHeader ++ renderFrom 0 (b :: bs), none⟩ from by
          unfold viewAction; rw [hdoc]] at hrep
        exact viewReply_ne (renderFrom 0 (b :: bs)) noBookingsMsg (by decide) hrep

/-- Closed instantiation of the view theorem: a one-record store is rendered,
the empty store replies no-bookings. -/
theorem view_renders_all_witness :
    labHandler ["view"] storeW envW
      = ⟨viewHeader ++ renderFrom 0 (storeW.bookings.getD []), none⟩ ∧
    labHandler ["view"] emptyStore envW = ⟨noBookingsMsg, none⟩ :=
  ⟨((view_renders_all [] storeW envW).2.2.1 (storeW.bookings.getD []) rfl
      (by decide)).1,
   (view_renders_all [] emptyStore envW).2.1 (Or.inr rfl)⟩

theorem bookAction_saved_none (args : List String) (doc : Store) (env : Env)
    (h : args.length < 5 ∨ dateFormatOk (args.getD 2 "") = false ∨
      timeFormatOk (args.getD 3 "") = false ∨ doc.bookings = none) :
    (bookAction args doc env).saved = none := by
  by_cases hlen : args.length < 5
  · rw [bookAction_short args doc env hlen]
  · rcases hdoc : doc.bookings with _ | l
    · rw [bookAction_bookingsNone args doc env _ _ rfl rfl hlen hdoc]
      by_cases hd : dateFormatOk (args.getD 2 "")
      · rw [if_pos hd]
        by_cases ht : timeFormatOk (args.getD 3 "")
        · rw [if_pos ht]
        · rw [if_neg ht]
      · rw [if_neg hd]
    · have hinv : dateFormatOk (args.getD 2 "") = false ∨
          timeFormatOk (args.getD 3 "") = false := by
        rcases h with h | h | h | h
        · exact absurd h hlen
        · exact Or.inl h
        · exact Or.inr h
        · rw [hdoc] at h
          exact absurd h (by simp)
      rw [bookAction_some args doc env (args.getD 1 "") (args.getD 2 "")
        (args.getD 3 "") (args.getD 4 "") l rfl rfl rfl rfl hlen hdoc]
      rcases hinv with hd | ht
      · rw [if_neg (by
          have hd2 : dateFormatOk (args[2]?.getD "") = false := by simpa using hd
          simp [hd2])]
      · by_cases hd : dateFormatOk (args.getD 2 "")
        · rw [if_pos hd, if_neg (by
            have ht2 : timeFormatOk (args[3]?.getD "") = false := by simpa using ht
            simp [ht2])]
        · rw [if_neg hd]

/-- C10: an invocation whose action token lowers to `view`, to `status`, or to
anything other than `book` and `cancel` never calls save, so it never writes
the store file; and whenever save is called, the invocation was a `book` that
passed all three validations (argument count, date format, time format) or a
`cancel` whose id was found in the loaded bookings list. -/
theorem saves_only_book_and_cancel (args : List String) (doc : Store) (env : Env) :
    (args = [] → (labHandler args doc env).saved = none) ∧
    (∀ a0 rest, args = a0 :: rest → lowerStr a0 ≠ "book" → lowerStr a0 ≠ "cancel" →
      (labHandler args doc env).saved = none) ∧
    ((labHandler args doc env).saved ≠ none →
      ∃ a0 rest, args = a0 :: rest ∧ a0 ≠ "" ∧
        ((lowerStr a0 = "book" ∧ 5 ≤ args.length ∧
            dateFormatOk (args.getD 2 "") = true ∧
            timeFormatOk (args.getD 3 "") = true) ∨
          (lowerStr a0 = "cancel" ∧ ∃ l l2, doc.bookings = some l ∧
            cancelFirst (args.getD 1 "") l = some l2))) := by
  refine ⟨?_, ?_, ?_⟩
  · rintro rfl
    rfl
  · rintro a0 rest rfl hb hc
    show (if a0 = "" then (⟨helpMsg, none⟩ : LabResult)
        else dispatch (lowerStr a0) (a0 :: rest) doc env).saved = none
    by_cases h0 : a0 = ""
    · rw [if_pos h0]
    · rw [if_neg h0]
      unfold dispatch
      rw [if_neg hb]
      by_cases hv : lowerStr a0 = "view"
      · rw [if_pos hv]
        exact viewAction_saved doc
      · rw [if_neg hv, if_neg hc]
        by_cases hs : lowerStr a0 = "status"
        · rw [if_pos hs]
          exact statusAction_saved _ doc env
        · rw [if_neg hs]
  · intro hne
    cases args with
    | nil => exact absurd rfl hne
    | cons a0 rest =>
      by_cases h0 : a0 = ""
      · exfalso
        apply hne
        show (if a0 = "" then (⟨helpMsg, none⟩ : LabResult)
            else dispatch (lowerStr a0) (a0 :: rest) doc env).saved = none
        rw [if_pos h0]
      · have hsd : (dispatch (lowerStr a0) (a0 :: rest) doc env).saved ≠ none := by
          intro hx
          apply hne
          show (if a0 = "" then (⟨helpMsg, none⟩ : LabResult)
              else dispatch (lowerStr a0) (a0 :: rest) doc env).saved = none
          rw [if_neg h0]
          exact hx
        refine ⟨a0, rest, rfl, h0, ?_⟩
        by_cases hbk : lowerStr a0 = "book"
        · have hsb : (bookAction (a0 :: rest) doc env).saved ≠ none := by
            unfold dispatch at hsd
            rw [if_pos hbk] at hsd
            exact hsd
          have hlen : ¬ (a0 :: rest).length < 5 :=
            fun hl => hsb (bookAction_saved_none _ _ _ (Or.inl hl))
          have hdd : dateFormatOk ((a0 :: rest).getD 2 "") = true := by
            by_cases h : dateFormatOk ((a0 :: rest).getD 2 "")
            · exact h
            · exact absurd
                (bookAction_saved_none _ doc env (Or.inr (Or.inl (by simpa using h))))
                hsb
          have htt : timeFormatOk ((a0 :: rest).getD 3 "") = true := by
            by_cases h : timeFormatOk ((a0 :: rest).getD 3 "")
            · exact h
            · exact absurd
                (bookAction_saved_none _ doc env
                  (Or.inr (Or.inr (Or.inl (by simpa using h)))))
                hsb
          exact Or.inl ⟨hbk, by simp only [List.length_cons] at hlen ⊢; omega, hdd, htt⟩
        · by_cases hcn : lowerStr a0 = "cancel"
          · have hsc : (cancelAction (a0 :: rest) doc env).saved ≠ none := by
              unfold dispatch at hsd
              rw [if_neg hbk] at hsd
              by_cases hv : lowerStr a0 = "view"
              · rw [if_pos hv] at hsd
                exact absurd (viewAction_saved doc) hsd
              · rw [if_neg hv, if_pos hcn] at hsd
                exact hsd
            right
            refine ⟨hcn, ?_⟩
            by_cases hc0 : (a0 :: rest).getD 1 "" = ""
            · exact absurd (by rw [cancelAction_noId _ _ _ hc0]) hsc
            · rcases hdoc : doc.bookings with _ | l
              · exact absurd
                  (by rw [cancelAction_bookingsNone _ _ _ _ rfl hc0 hdoc]) hsc
              · rcases hcf : cancelFirst ((a0 :: rest).getD 1 "") l with _ | l2
                · exact absurd
                    (by rw [cancelAction_some _ _ _ _ l rfl hc0 hdoc, hcf]) hsc
                · exact ⟨l, l2, rfl, hcf⟩
          · exfalso
            apply hsd
            unfold dispatch
            rw [if_neg hbk]
            by_cases hv : lowerStr a0 = "view"
            · rw [if_pos hv]
              exact viewAction_saved doc
            · rw [if_neg hv, if_neg hcn]
              by_cases hst : lowerStr a0 = "status"
              · rw [if_pos hst]
                exact statusAction_saved _ doc env
              · rw [if_neg hst]

/-- Closed instantiation of the frame theorem: neither `view` nor `status`
writes anything. -/
theorem saves_only_book_and_cancel_witness :
    (labHandler ["view"] storeW envW).saved = none ∧
    (labHandler ["status", "LAB111111"] storeW envW).saved = none :=
  ⟨(saves_only_book_and_cancel ["view"] storeW envW).2.1 "view" [] rfl
      (by decide) (by decide),
   (saves_only_book_and_cancel ["status", "LAB111111"] storeW envW).2.1 "status"
      ["LAB111111"] rfl (by decide) (by decide)⟩

end LabBooking
